import Mathlib

/-!
# Verification of `src/datasets/prepare_clinical_embeddings.py`

Shallow embedding of the clinical-embeddings preparation pipeline:
download → extract → parse → convert → cache.

Modelling choices (each definition is annotated with the source lines it
embeds):

* Vector scalars are an arbitrary type `α` (the pipeline never computes on
  the float values, it only moves them around; instantiated with `Int` in
  concrete witnesses).
* The filesystem state visible to the pipeline is a `World`: the output
  tables keyed by model key (the file `<key>_embeddings.parquet` in the
  output directory) and the cached archives keyed by model key (the file
  `<key>.tar.gz` in the cache directory).
* The network is an association list from URL to the outcome a streamed
  GET would have (a downloaded archive, or a transfer failure).
* A gensim model (`KeyedVectors`) is a list of vocabulary keys in
  insertion order plus an `n × vector_size` matrix of vectors; the matrix
  shape is an invariant of the external library's data structure and is
  carried as proof fields.
* The byte-level behaviour of `download_file` (status check before the
  destination is opened, chunked streaming) is embedded separately over
  byte lists, since the pipeline-level claims never look inside archives
  mid-transfer.
-/

/-- The static URL registry, `DOWNLOAD_URLS` (source lines 51-60). -/
def DOWNLOAD_URLS : List (String × String) :=
  [("w2v_100d_oa_cr", "https://upenn.box.com/shared/static/6sqzqvcunar39324adgy8qncm7yam6hu.gz"),
   ("w2v_300d_oa_cr", "https://upenn.box.com/shared/static/s52hsf65c51e3ro0ssx79e6l25qykt0m.gz"),
   ("w2v_600d_oa_cr", "https://upenn.box.com/shared/static/3y4h8iwg1dg2y3dqdwufspsl61usc0xv.gz"),
   ("w2v_100d_oa_all", "https://upenn.box.com/shared/static/gkyqs962i3i2rw55a821n62ex410bi4a.gz"),
   ("w2v_300d_oa_all", "https://upenn.box.com/shared/static/9djgjigsve09a7f9vz6ubtsovqwb40xa.gz")]

/-- The default batch, `DEFAULT_MODELS` (source line 63). -/
def DEFAULT_MODELS : List String :=
  ["w2v_100d_oa_cr", "w2v_300d_oa_cr", "w2v_600d_oa_cr"]

/-- First-match association-list lookup (Python `dict` lookup / `in`). -/
def alookup {β : Type} (k : String) : List (String × β) → Option β
  | [] => none
  | p :: rest => if p.1 = k then some p.2 else alookup k rest

/-- A gensim `KeyedVectors` object: `keys` is `key_to_index.keys()` in
insertion order, `vecs` the rows of the vector matrix (row `i` is the
vector of `keys[i]`, so `wv[keys[i]] = vecs[i]`), `vector_size` the
dimensionality.  `hlen`/`hdim` are the matrix-shape invariants of the
library's `n × vector_size` array. -/
structure WV (α : Type) where
  keys : List String
  vecs : List (List α)
  vector_size : Nat
  hlen : vecs.length = keys.length
  hdim : ∀ v ∈ vecs, v.length = vector_size

/-- The content of a file that may be handed to the model loader: one of
the three serializations the loader knows (a full trainable `Word2Vec`
save, a `KeyedVectors` save, the legacy word2vec binary vector format) or
bytes none of the strategies can parse. -/
inductive ModelContent (α : Type)
  | fullModel (wv : WV α)
  | keyedVectors (wv : WV α)
  | word2vecBinary (wv : WV α)
  | unparseable

/-- A tar member is a regular file (with its content) or a directory. -/
inductive MemberKind (α : Type)
  | file (content : ModelContent α)
  | dir

/-- A tar archive member: its name (without trailing slash, as in
`tarfile.TarInfo.name`) and kind. -/
structure Member (α : Type) where
  name : String
  kind : MemberKind α

/-- An archive is its member list in archive order. -/
abbrev Archive (α : Type) := List (Member α)

/-- Whether a member is a regular file. -/
def MemberKind.isFileB {α : Type} : MemberKind α → Bool
  | .file _ => true
  | .dir => false

/-- First path component of a member name: the top-level entry that
`extractall` creates for it in the scratch directory. -/
def topName (s : String) : String := ⟨s.data.takeWhile (· != '/')⟩

/-- After `tar.extractall`, the top-level entry `n` of the scratch
directory is a regular file exactly when some archive member named
exactly `n` is a regular file (`Path.is_file` in the fallback loop). -/
def isTopFile {α : Type} (a : Archive α) (n : String) : Bool :=
  a.any (fun m => m.name == n && m.kind.isFileB)

/-- `str.endswith(suffix)` over the character data (kernel-reducible
version of string suffix testing). -/
def String.endsWithB (s suffix : String) : Bool := suffix.data.isSuffixOf s.data

/-- `extract_tar_gz` (source lines 82-96): extract everything, return the
first member whose name ends in `.bin` (any member kind — the source
tests only `member.name`); if none, return the first top-level regular
file of the scratch directory (`extract_dir.iterdir()`, modelled in
member order); else raise `FileNotFoundError` (`.error ()`). -/
def extract_tar_gz {α : Type} (a : Archive α) : Except Unit String :=
  match a.find? (fun m => m.name.endsWithB ".bin") with
  | some m => .ok m.name
  | none =>
    match (a.map (fun m => topName m.name)).find? (fun n => isTopFile a n) with
    | some n => .ok n
    | none => .error ()

/-- Reading the file at path `p` inside the populated scratch directory:
the content of the archive member of that name if it is a regular file,
`none` if `p` names a directory or nothing. -/
def scratchLookup {α : Type} (a : Archive α) (p : String) : Option (ModelContent α) :=
  match a.find? (fun m => m.name == p) with
  | some m =>
    match m.kind with
    | .file c => some c
    | .dir => none
  | none => none

/-- Strategy 1, `Word2Vec.load` + `.wv` (source line 105): succeeds only
on a full trainable-model save (on anything else the load or the `.wv`
access raises, which the source catches). -/
def Word2Vec_load {α : Type} : Option (ModelContent α) → Except Unit (WV α)
  | some (.fullModel wv) => .ok wv
  | _ => .error ()

/-- Strategy 2, `KeyedVectors.load` (source line 110): succeeds only on a
`KeyedVectors` save. -/
def KeyedVectors_load {α : Type} : Option (ModelContent α) → Except Unit (WV α)
  | some (.keyedVectors wv) => .ok wv
  | _ => .error ()

/-- Strategy 3, `KeyedVectors.load_word2vec_format(..., binary=True)`
(source line 113): succeeds only on the legacy binary vector-exchange
format. -/
def load_word2vec_format {α : Type} : Option (ModelContent α) → Except Unit (WV α)
  | some (.word2vecBinary wv) => .ok wv
  | _ => .error ()

/-- The pipeline's fault taxonomy (spec §7): `unknownModel` is the
`ValueError` of line 157, `transferError` the HTTP/connection failure of
`download_file`, `archiveError` the `FileNotFoundError` of line 96,
`unrecognizedFormat` the exception escaping the final load attempt. -/
inductive PipelineFault
  | unknownModel
  | transferError
  | archiveError
  | unrecognizedFormat
  deriving DecidableEq

/-- `load_word2vec_model` (source lines 99-116): try the three parsing
strategies in order, advancing only on failure; the exception of the last
strategy propagates (`unrecognizedFormat`). -/
def load_word2vec_model {α : Type} (c : Option (ModelContent α)) :
    Except PipelineFault (WV α) :=
  match Word2Vec_load c with
  | .ok wv => .ok wv
  | .error _ =>
    match KeyedVectors_load c with
    | .ok wv => .ok wv
    | .error _ =>
      match load_word2vec_format c with
      | .ok wv => .ok wv
      | .error _ => .error .unrecognizedFormat

/-- One row of the output table: columns `word`, `vector`, `dimension`. -/
structure Row (α : Type) where
  word : String
  vector : List α
  dimension : Nat
  deriving DecidableEq

/-- `embeddings_to_parquet` (source lines 119-137): `words` is
`list(wv.key_to_index.keys())`, `vectors` is `[wv[word] for word in
words]` (row `i` of the matrix for key `i`), the `dimension` column is
`[wv.vector_size] * len(words)`; rows are written in that order. -/
def embeddings_to_parquet {α : Type} (wv : WV α) : List (Row α) :=
  (wv.keys.zip wv.vecs).map
    (fun p => { word := p.1, vector := p.2, dimension := wv.vector_size })

/-- The filesystem state the pipeline reads and writes: output tables
(file `<key>_embeddings.parquet`, keyed here by model key) and cached
archives (file `<key>.tar.gz`, keyed by model key). -/
structure World (α : Type) where
  outputs : List (String × List (Row α))
  archives : List (String × Archive α)

/-- The network: what a streamed GET of each URL would deliver — an
archive, or a transfer failure (non-success status or connection fault).
A URL absent from the list also fails. -/
abbrev Remote (α : Type) := List (String × Except Unit (Archive α))

/-- Observable work events of one pipeline run, for the no-network /
no-parsing claims. -/
inductive Ev
  | download
  | extract
  | load
  | convert
  deriving DecidableEq

/-- Source lines 187-204: the part of `prepare_clinical_embeddings` after
the cache check — extract the archive, load the model file, convert to
parquet; any stage's failure propagates and writes no output. `evs` are
the events that already happened (the download, if any). -/
def runFromArchive {α : Type} (st : World α) (key : String) (a : Archive α)
    (evs : List Ev) : Except PipelineFault String × World α × List Ev :=
  match extract_tar_gz a with
  | .error _ => (.error .archiveError, st, evs ++ [.extract])
  | .ok p =>
    match load_word2vec_model (scratchLookup a p) with
    | .error e => (.error e, st, evs ++ [.extract, .load])
    | .ok wv =>
      (.ok (key ++ "_embeddings.parquet"),
       { st with outputs := (key, embeddings_to_parquet wv) :: st.outputs },
       evs ++ [.extract, .load, .convert])

/-- `prepare_clinical_embeddings` (source lines 140-204): registry check
(line 156, `ValueError` on unknown key), output-existence short circuit
(lines 172-175), cached-archive check and download (lines 181-185), then
extraction / loading / conversion.  Returns the result (`.ok` with the
output-file name, or the fault), the world after, and the events
performed. -/
def prepare_clinical_embeddings {α : Type} (remote : Remote α) (st : World α)
    (key : String) : Except PipelineFault String × World α × List Ev :=
  match alookup key DOWNLOAD_URLS with
  | none => (.error .unknownModel, st, [])
  | some url =>
    if (alookup key st.outputs).isSome then
      (.ok (key ++ "_embeddings.parquet"), st, [])
    else
      match alookup key st.archives with
      | some a => runFromArchive st key a []
      | none =>
        match alookup url remote with
        | some (.ok a) =>
          runFromArchive { st with archives := (key, a) :: st.archives } key a
            [.download]
        | _ => (.error .transferError, st, [.download])

/-- `argparse` acceptance of `--model key` (source lines 211-216):
`choices=list(DOWNLOAD_URLS.keys())`, so parsing fails unless the key is
registered. -/
def argparseAcceptsModel (key : String) : Bool :=
  (alookup key DOWNLOAD_URLS).isSome

/-- The batch loop of `main` (source lines 264-281): process the models
in order inside one `try`; the first fault aborts the loop.  Returns the
final world, the list of models actually attempted, and the fault (if
any) that the `except` block prints to stderr. -/
def runModels {α : Type} (remote : Remote α) (st : World α) :
    List String → World α × List String × Option PipelineFault
  | [] => (st, [], none)
  | key :: rest =>
    match prepare_clinical_embeddings remote st key with
    | (.ok _, st1, _) =>
      let r := runModels remote st1 rest
      (r.1, key :: r.2.1, r.2.2)
    | (.error e, st1, _) => (st1, [key], some e)

/-- Exit-code policy of `main` (source lines 279-281): `sys.exit(1)` in
the `except` block, implicit 0 on success. -/
def exitCode : Option PipelineFault → Nat
  | none => 0
  | some _ => 1

/-- A transfer fault of `download_file`: the `HTTPError` of
`raise_for_status`, or a connection fault during chunk iteration. -/
inductive TransferFault
  | httpStatus (code : Nat)
  | streamInterrupted
  deriving DecidableEq

/-- An HTTP response as `requests.get(url, stream=True)` presents it:
final status (after redirects), the byte chunks `iter_content` yields
before a possible connection fault, and whether iteration then faults. -/
structure HttpResponse where
  status : Nat
  chunks : List (List Nat)
  streamFault : Bool

/-- `download_file` at byte level (source lines 66-79), as a function of
the response and the destination file's prior content (`none` = absent):
`raise_for_status` raises for any status ≥ 400 before `open(dest_path,
'wb')` runs, leaving the destination untouched; otherwise the file is
truncated and the yielded chunks are written (`if chunk:` skips empty
chunks, which does not change the written bytes), and a mid-stream fault
surfaces after they are on disk.  Returns the destination content after
the call and the fault, if any. -/
def download_file (resp : HttpResponse) (dest0 : Option (List Nat)) :
    Option (List Nat) × Option TransferFault :=
  if resp.status ≥ 400 then
    (dest0, some (.httpStatus resp.status))
  else
    (some resp.chunks.flatten,
     if resp.streamFault then some .streamInterrupted else none)

/-! ## Concrete fixtures used by witnesses -/

/-- A small concrete `KeyedVectors` value. -/
def wvEx : WV Int where
  keys := ["alpha", "beta"]
  vecs := [[1, 2, 3], [4, 5, 6]]
  vector_size := 3
  hlen := rfl
  hdim := by decide

/-- A well-formed archive: one regular file `model.bin` in the legacy
binary format. -/
def goodArchive : Archive Int :=
  [{ name := "model.bin", kind := .file (.word2vecBinary wvEx) }]

/-! ## C2, C8: converter invariants -/

/-- C2: for every produced output table, the row count equals the number
of vocabulary entries, every row's vector length equals that row's
`dimension` value, and the `dimension` value is `wv.vector_size` in every
row. -/
theorem c2_row_count_and_dimension_invariant {α : Type} (wv : WV α) :
    (embeddings_to_parquet wv).length = wv.keys.length ∧
    (∀ r ∈ embeddings_to_parquet wv, r.vector.length = r.dimension) ∧
    (∀ r ∈ embeddings_to_parquet wv, r.dimension = wv.vector_size) := by
  refine ⟨?_, ?_, ?_⟩
  · simp [embeddings_to_parquet, wv.hlen]
  · intro r hr
    simp only [embeddings_to_parquet, List.mem_map] at hr
    obtain ⟨p, hp, rfl⟩ := hr
    exact wv.hdim p.2 (List.of_mem_zip hp).2
  · intro r hr
    simp only [embeddings_to_parquet, List.mem_map] at hr
    obtain ⟨p, _, rfl⟩ := hr
    rfl

/-- Witness for C2 at the concrete model `wvEx`. -/
theorem c2_row_count_and_dimension_invariant_witness :
    (embeddings_to_parquet wvEx).length = wvEx.keys.length ∧
    ({ word := "alpha", vector := [1, 2, 3], dimension := 3 } :
      Row Int).vector.length =
      ({ word := "alpha", vector := [1, 2, 3], dimension := 3 } :
        Row Int).dimension :=
  ⟨(c2_row_count_and_dimension_invariant wvEx).1,
   (c2_row_count_and_dimension_invariant wvEx).2.1 _ (by decide)⟩

/-- C8: the converter emits rows in the insertion order of the vocabulary
mapping — the sequence of words in the output table equals the key
sequence, with no sorting applied. -/
theorem c8_rows_in_vocabulary_order {α : Type} (wv : WV α) :
    (embeddings_to_parquet wv).map Row.word = wv.keys := by
  unfold embeddings_to_parquet
  rw [List.map_map]
  exact List.map_fst_zip wv.keys wv.vecs (le_of_eq wv.hlen.symm)

/-! ## C3: ordered-fallback model loading -/

/-- C3: the loader attempts the three strategies in the fixed order
full-model, keyed-vectors, legacy binary, advancing only on failure of
the current one; all three failing yields `unrecognizedFormat`; and a
file readable only by the third strategy still loads. -/
theorem c3_ordered_format_fallback (α : Type) :
    (∀ (c : Option (ModelContent α)) wv, Word2Vec_load c = .ok wv →
      load_word2vec_model c = .ok wv) ∧
    (∀ (c : Option (ModelContent α)) wv, Word2Vec_load c = .error () →
      KeyedVectors_load c = .ok wv → load_word2vec_model c = .ok wv) ∧
    (∀ (c : Option (ModelContent α)) wv, Word2Vec_load c = .error () →
      KeyedVectors_load c = .error () → load_word2vec_format c = .ok wv →
      load_word2vec_model c = .ok wv) ∧
    (∀ c : Option (ModelContent α), Word2Vec_load c = .error () →
      KeyedVectors_load c = .error () → load_word2vec_format c = .error () →
      load_word2vec_model c = .error .unrecognizedFormat) ∧
    (∀ wv : WV α,
      Word2Vec_load (some (.word2vecBinary wv)) = .error () ∧
      KeyedVectors_load (some (.word2vecBinary wv)) = .error () ∧
      load_word2vec_model (some (.word2vecBinary wv)) = .ok wv) := by
  refine ⟨?_, ?_, ?_, ?_, ?_⟩
  · intro c wv h; simp [load_word2vec_model, h]
  · intro c wv h1 h2; simp [load_word2vec_model, h1, h2]
  · intro c wv h1 h2 h3; simp [load_word2vec_model, h1, h2, h3]
  · intro c h1 h2 h3; simp [load_word2vec_model, h1, h2, h3]
  · intro wv; exact ⟨rfl, rfl, rfl⟩

/-- Witness for C3: the concrete legacy-binary file `wvEx` is rejected by
strategies 1 and 2 and loaded by the fallback. -/
theorem c3_ordered_format_fallback_witness :
    Word2Vec_load (some (.word2vecBinary wvEx)) = .error () ∧
    KeyedVectors_load (some (.word2vecBinary wvEx)) = .error () ∧
    load_word2vec_model (some (.word2vecBinary wvEx)) = .ok wvEx :=
  (c3_ordered_format_fallback Int).2.2.2.2 wvEx

/-! ## C10: download status check precedes opening the destination -/

/-- C10: on a non-success status `download_file` raises before the
destination is opened, leaving it untouched; the destination content can
only change when the status was a success, and then it holds exactly the
streamed chunks, with a fault only from a mid-stream interruption. -/
theorem c10_status_checked_before_write (resp : HttpResponse)
    (dest0 : Option (List Nat)) :
    (400 ≤ resp.status →
      download_file resp dest0 = (dest0, some (.httpStatus resp.status))) ∧
    ((download_file resp dest0).1 ≠ dest0 → resp.status < 400) ∧
    (resp.status < 400 →
      download_file resp dest0 =
        (some resp.chunks.flatten,
         if resp.streamFault then some .streamInterrupted else none)) := by
  by_cases h : 400 ≤ resp.status
  · refine ⟨fun _ => ?_, fun hne => ?_, fun hlt => ?_⟩
    · simp [download_file, h]
    · exact absurd (show (download_file resp dest0).1 = dest0 by
        simp [download_file, h]) hne
    · exact absurd h (not_le.mpr hlt)
  · have hlt : resp.status < 400 := not_le.mp h
    refine ⟨fun hge => absurd hge h, fun _ => hlt, fun _ => ?_⟩
    simp [download_file, h]

/-- Witness for C10: a 404 response leaves an existing destination file
byte-for-byte unchanged and reports the status fault. -/
theorem c10_status_checked_before_write_witness :
    download_file { status := 404, chunks := [[7]], streamFault := false }
        (some [1, 2]) =
      (some [1, 2], some (.httpStatus 404)) :=
  (c10_status_checked_before_write
    { status := 404, chunks := [[7]], streamFault := false }
    (some [1, 2])).1 (by decide)

/-! ## Branch lemmas for `prepare_clinical_embeddings` -/

/-- Unknown key: the `ValueError` of line 157 fires before anything else. -/
theorem prepare_unknown_key {α : Type} (remote : Remote α) (st : World α)
    (key : String) (h : alookup key DOWNLOAD_URLS = none) :
    prepare_clinical_embeddings remote st key = (.error .unknownModel, st, []) := by
  unfold prepare_clinical_embeddings
  rw [h]

/-- Output already present: the short circuit of lines 172-175. -/
theorem prepare_output_hit {α : Type} (remote : Remote α) (st : World α)
    (key url : String) (hreg : alookup key DOWNLOAD_URLS = some url)
    (hout : (alookup key st.outputs).isSome = true) :
    prepare_clinical_embeddings remote st key =
      (.ok (key ++ "_embeddings.parquet"), st, []) := by
  unfold prepare_clinical_embeddings
  rw [hreg]
  simp [hout]

/-- Cached archive: lines 181-185 skip the download. -/
theorem prepare_cached_archive {α : Type} (remote : Remote α) (st : World α)
    (key url : String) (a : Archive α)
    (hreg : alookup key DOWNLOAD_URLS = some url)
    (hout : (alookup key st.outputs).isSome = false)
    (harc : alookup key st.archives = some a) :
    prepare_clinical_embeddings remote st key = runFromArchive st key a [] := by
  unfold prepare_clinical_embeddings
  rw [hreg]
  simp [hout, harc]

/-- No cached archive, successful download: the archive is written to the
cache and the pipeline continues from it. -/
theorem prepare_download_ok {α : Type} (remote : Remote α) (st : World α)
    (key url : String) (a : Archive α)
    (hreg : alookup key DOWNLOAD_URLS = some url)
    (hout : (alookup key st.outputs).isSome = false)
    (harc : alookup key st.archives = none)
    (hrem : alookup url remote = some (.ok a)) :
    prepare_clinical_embeddings remote st key =
      runFromArchive { st with archives := (key, a) :: st.archives } key a
        [.download] := by
  unfold prepare_clinical_embeddings
  rw [hreg]
  simp [hout, harc, hrem]

/-- No cached archive, failed transfer: the fault aborts this model. -/
theorem prepare_download_fails {α : Type} (remote : Remote α) (st : World α)
    (key url : String)
    (hreg : alookup key DOWNLOAD_URLS = some url)
    (hout : (alookup key st.outputs).isSome = false)
    (harc : alookup key st.archives = none)
    (hrem : alookup url remote = none ∨ alookup url remote = some (.error ())) :
    prepare_clinical_embeddings remote st key =
      (.error .transferError, st, [.download]) := by
  unfold prepare_clinical_embeddings
  rw [hreg]
  rcases hrem with h | h <;> simp [hout, harc, h]

/-! ## C4: unknown model key rejected before any network call -/

/-- C4: a key outside the static registry is rejected by `argparse`
(`choices=`) at parsing time, and a direct call of the pipeline entry
point raises the unknown-model fault with no events performed (in
particular no download) and the world untouched. -/
theorem c4_unknown_key_fails_before_network {α : Type} (remote : Remote α)
    (st : World α) (key : String) (h : alookup key DOWNLOAD_URLS = none) :
    argparseAcceptsModel key = false ∧
    prepare_clinical_embeddings remote st key =
      (.error .unknownModel, st, []) := by
  constructor
  · simp [argparseAcceptsModel, h]
  · exact prepare_unknown_key remote st key h

/-- Witness for C4 at the unregistered key `"not_a_model"`. -/
theorem c4_unknown_key_fails_before_network_witness :
    argparseAcceptsModel "not_a_model" = false ∧
    prepare_clinical_embeddings ([] : Remote Int) ⟨[], []⟩ "not_a_model" =
      (.error .unknownModel, ⟨[], []⟩, []) :=
  c4_unknown_key_fails_before_network [] ⟨[], []⟩ "not_a_model" (by decide)

/-! ## C1: output-exists short circuit -/

/-- A world whose output directory already holds a (empty) table for the
unregistered key `"bogus_model"`. -/
def stBogus : World Int := { outputs := [("bogus_model", [])], archives := [] }

/-- Counterexample to C1 as stated: for the model key `"bogus_model"`,
which is not in the registry, the output file already exists, yet
`prepare_clinical_embeddings` does not return its path — the registry
check of line 156 fires first and raises the unknown-model fault. -/
theorem c1_counterexample :
    (alookup "bogus_model" stBogus.outputs).isSome = true ∧
    (prepare_clinical_embeddings ([] : Remote Int) stBogus "bogus_model").1 =
      .error .unknownModel := by
  exact ⟨rfl, rfl⟩

/-- C1 (amended to registered keys): if the key is in the registry and
the output table exists, the pipeline returns its path immediately, with
no download, extraction or parsing events, and the world — in particular
the existing output file — byte-for-byte unchanged. -/
theorem c1_output_exists_short_circuit {α : Type} (remote : Remote α)
    (st : World α) (key url : String) (t : List (Row α))
    (hreg : alookup key DOWNLOAD_URLS = some url)
    (hout : alookup key st.outputs = some t) :
    prepare_clinical_embeddings remote st key =
      (.ok (key ++ "_embeddings.parquet"), st, []) :=
  prepare_output_hit remote st key url hreg (by simp [hout])

/-- Witness for C1 (amended) at the registered key with a present output. -/
theorem c1_output_exists_short_circuit_witness :
    prepare_clinical_embeddings ([] : Remote Int)
        ⟨[("w2v_100d_oa_cr", [])], []⟩ "w2v_100d_oa_cr" =
      (.ok ("w2v_100d_oa_cr" ++ "_embeddings.parquet"),
       ⟨[("w2v_100d_oa_cr", [])], []⟩, []) :=
  c1_output_exists_short_circuit []
    ⟨[("w2v_100d_oa_cr", [])], []⟩ "w2v_100d_oa_cr"
    "https://upenn.box.com/shared/static/6sqzqvcunar39324adgy8qncm7yam6hu.gz"
    [] rfl rfl

/-! ## Extractor lemmas -/

/-- `List.takeWhile` is idempotent for a fixed predicate. -/
theorem takeWhile_idem {β : Type} (p : β → Bool) (l : List β) :
    (l.takeWhile p).takeWhile p = l.takeWhile p := by
  induction l with
  | nil => rfl
  | cons x xs ih =>
    cases hx : p x with
    | false => simp [List.takeWhile_cons, hx]
    | true => simp [List.takeWhile_cons, hx, ih]

/-- A top-level entry name has no slash left to strip. -/
theorem topName_idem (s : String) : topName (topName s) = topName s := by
  unfold topName
  exact congrArg String.mk (takeWhile_idem _ s.data)

/-- An archive with no regular-file member and no member named `*.bin`
makes the extractor raise its no-model-file failure. -/
theorem extract_tar_gz_no_candidates {α : Type} (a : Archive α)
    (hnobin : ∀ m ∈ a, m.name.endsWithB ".bin" = false)
    (hnofile : ∀ m ∈ a, m.kind.isFileB = false) :
    extract_tar_gz a = .error () := by
  unfold extract_tar_gz
  have h1 : a.find? (fun m => m.name.endsWithB ".bin") = none :=
    List.find?_eq_none.mpr (fun m hm => by simp [hnobin m hm])
  rw [h1]
  have h2 : (a.map (fun m => topName m.name)).find? (fun n => isTopFile a n) =
      none := by
    refine List.find?_eq_none.mpr (fun n _ => ?_)
    simp only [isTopFile, List.any_eq_true, not_exists]
    rintro m ⟨hm, hmm⟩
    rw [Bool.and_eq_true] at hmm
    rw [hnofile m hm] at hmm
    exact Bool.false_ne_true hmm.2
  rw [h2]

/-- `List.find?` returns the element at the first index satisfying the
predicate. -/
theorem find?_of_first_index {β : Type} (p : β → Bool) (l : List β) (i : Nat)
    (hi : i < l.length) (hp : p (l.get ⟨i, hi⟩) = true)
    (hfirst : ∀ j (hj : j < l.length), j < i → p (l.get ⟨j, hj⟩) = false) :
    l.find? p = some (l.get ⟨i, hi⟩) := by
  induction l generalizing i with
  | nil => exact absurd hi (Nat.not_lt_zero i)
  | cons x xs ih =>
    cases i with
    | zero =>
      simp only [List.get] at hp
      simp [List.find?, hp]
    | succ i' =>
      have hx : p x = false :=
        hfirst 0 (Nat.succ_pos _) (Nat.succ_pos _)
      simp only [List.find?, hx]
      simp only [List.get] at hp ⊢
      exact ih i' (Nat.lt_of_succ_lt_succ hi) hp
        (fun j hj hji =>
          hfirst (j + 1) (Nat.succ_lt_succ hj) (Nat.succ_lt_succ hji))

/-! ## C9: extractor selection policy -/

/-- An archive with no `.bin` member whose only regular file is nested in
a subdirectory: the fallback loop over the top level of the scratch
directory finds no regular file. -/
def nestedArchive : Archive Int :=
  [{ name := "sub", kind := .dir },
   { name := "sub/a.txt", kind := .file .unparseable }]

/-- Counterexample to C9 as stated: `nestedArchive` contains a
regular-file member and no `.bin` member, yet the extractor raises the
no-model-file failure instead of returning a regular file — the fallback
only inspects the top level of the scratch directory, where the sole
entry is the directory `sub`. -/
theorem c9_counterexample :
    nestedArchive.any (fun m => m.kind.isFileB) = true ∧
    nestedArchive.all (fun m => !(m.name.endsWithB ".bin")) = true ∧
    extract_tar_gz nestedArchive = .error () :=
  ⟨rfl, rfl, rfl⟩

/-- C9 (amended): the extractor returns the first member (in archive
member order, of any kind) whose name ends in `.bin`; failing that, it
returns the first top-level regular file of the scratch directory (then a
regular file of that name exists in the archive); and when no member ends
in `.bin` and every regular-file member is nested below a subdirectory
(its name is not its own top-level component), it fails with the
no-model-file error instead of returning a file. -/
theorem c9_extractor_selection_policy {α : Type} (a : Archive α) :
    (∀ i (hi : i < a.length),
      (a.get ⟨i, hi⟩).name.endsWithB ".bin" = true →
      (∀ j (hj : j < a.length), j < i →
        (a.get ⟨j, hj⟩).name.endsWithB ".bin" = false) →
      extract_tar_gz a = .ok (a.get ⟨i, hi⟩).name) ∧
    (∀ n, (∀ m ∈ a, m.name.endsWithB ".bin" = false) →
      (a.map (fun m => topName m.name)).find? (fun n' => isTopFile a n') =
        some n →
      extract_tar_gz a = .ok n ∧ isTopFile a n = true) ∧
    ((∀ m ∈ a, m.name.endsWithB ".bin" = false) →
      (∀ m ∈ a, m.kind.isFileB = true → topName m.name ≠ m.name) →
      extract_tar_gz a = .error ()) := by
  refine ⟨?_, ?_, ?_⟩
  · intro i hi hp hfirst
    unfold extract_tar_gz
    rw [find?_of_first_index (fun m => m.name.endsWithB ".bin") a i hi hp hfirst]
  · intro n hnobin hfind
    have h1 : a.find? (fun m => m.name.endsWithB ".bin") = none :=
      List.find?_eq_none.mpr (fun m hm => by simp [hnobin m hm])
    constructor
    · unfold extract_tar_gz
      rw [h1, hfind]
    · exact List.find?_some hfind
  · intro hnobin hnested
    unfold extract_tar_gz
    have h1 : a.find? (fun m => m.name.endsWithB ".bin") = none :=
      List.find?_eq_none.mpr (fun m hm => by simp [hnobin m hm])
    rw [h1]
    have h2 : (a.map (fun m => topName m.name)).find?
        (fun n => isTopFile a n) = none := by
      refine List.find?_eq_none.mpr (fun n hn => ?_)
      simp only [List.mem_map] at hn
      obtain ⟨m, hm, rfl⟩ := hn
      intro hcontra
      rw [isTopFile, List.any_eq_true] at hcontra
      obtain ⟨m', hm', hb⟩ := hcontra
      rw [Bool.and_eq_true, beq_iff_eq] at hb
      apply hnested m' hm' hb.2
      rw [hb.1]
      exact topName_idem _
    rw [h2]

/-- Witness for C9 (amended) at a two-member archive whose second member
is the first (and only) `.bin` member. -/
theorem c9_extractor_selection_policy_witness :
    extract_tar_gz
        ([{ name := "readme.txt", kind := .file .unparseable },
          { name := "model.bin", kind := .file (.word2vecBinary wvEx) }] :
          Archive Int) = .ok "model.bin" :=
  (c9_extractor_selection_policy _).1 1 (by decide) (by decide)
    (fun j hj hji => by
      have hj0 : j = 0 := Nat.lt_one_iff.mp hji
      subst hj0
      rfl)

/-! ## C5: empty archive rejection -/

/-- An archive whose only member is a directory named `foo.bin`. -/
def dirBinArchive : Archive Int := [{ name := "foo.bin", kind := .dir }]

/-- A world with `dirBinArchive` cached for a registered key and no
output. -/
def stDirBin : World Int :=
  { outputs := [], archives := [("w2v_100d_oa_cr", dirBinArchive)] }

/-- Counterexample to C5 as stated: `dirBinArchive` has zero regular-file
members, yet the run does not fail with the extractor's no-model-file
`ArchiveError` — the `.bin` name check of line 89 matches the directory
member, the extractor returns its path, and the failure only happens
later, in the model loader. -/
theorem c5_counterexample :
    dirBinArchive.all (fun m => !m.kind.isFileB) = true ∧
    extract_tar_gz dirBinArchive = .ok "foo.bin" ∧
    (prepare_clinical_embeddings ([] : Remote Int) stDirBin
        "w2v_100d_oa_cr").1 = .error .unrecognizedFormat ∧
    (prepare_clinical_embeddings ([] : Remote Int) stDirBin
        "w2v_100d_oa_cr").1 ≠ .error .archiveError := by
  refine ⟨rfl, rfl, rfl, ?_⟩
  intro hcontra
  rw [show (prepare_clinical_embeddings ([] : Remote Int) stDirBin
      "w2v_100d_oa_cr").1 = Except.error PipelineFault.unrecognizedFormat
    from rfl] at hcontra
  exact PipelineFault.noConfusion (Except.error.inj hcontra)

/-- C5 (amended): an archive with zero regular-file members and no member
of any kind named `*.bin` makes the run fail with the extractor's
no-model-file `ArchiveError`, and no output table is written for that
model (whether the archive was cached or just downloaded). -/
theorem c5_empty_archive_error {α : Type} (remote : Remote α) (st : World α)
    (key url : String) (a : Archive α)
    (hreg : alookup key DOWNLOAD_URLS = some url)
    (hout : (alookup key st.outputs).isSome = false)
    (harc : alookup key st.archives = some a ∨
      (alookup key st.archives = none ∧ alookup url remote = some (.ok a)))
    (hnofile : ∀ m ∈ a, m.kind.isFileB = false)
    (hnobin : ∀ m ∈ a, m.name.endsWithB ".bin" = false) :
    (prepare_clinical_embeddings remote st key).1 = .error .archiveError ∧
    (prepare_clinical_embeddings remote st key).2.1.outputs = st.outputs := by
  have hE := extract_tar_gz_no_candidates a hnobin hnofile
  rcases harc with h | ⟨h1, h2⟩
  · rw [prepare_cached_archive remote st key url a hreg hout h]
    simp [runFromArchive, hE]
  · rw [prepare_download_ok remote st key url a hreg hout h1 h2]
    simp [runFromArchive, hE]

/-- Witness for C5 (amended): a cached archive holding a single directory
member (not named `*.bin`) yields `ArchiveError` and writes no output. -/
theorem c5_empty_archive_error_witness :
    (prepare_clinical_embeddings ([] : Remote Int)
        ⟨[], [("w2v_100d_oa_cr", [{ name := "d", kind := .dir }])]⟩
        "w2v_100d_oa_cr").1 = .error .archiveError ∧
    (prepare_clinical_embeddings ([] : Remote Int)
        ⟨[], [("w2v_100d_oa_cr", [{ name := "d", kind := .dir }])]⟩
        "w2v_100d_oa_cr").2.1.outputs = ([] : List (String × List (Row Int))) :=
  c5_empty_archive_error []
    ⟨[], [("w2v_100d_oa_cr", [{ name := "d", kind := .dir }])]⟩
    "w2v_100d_oa_cr"
    "https://upenn.box.com/shared/static/6sqzqvcunar39324adgy8qncm7yam6hu.gz"
    [{ name := "d", kind := .dir }] rfl rfl (Or.inl rfl)
    (by decide) (by decide)

/-! ## C7: cache reuse -/

/-- A world with an empty (zero-member) archive cached for a registered
key and no output table. -/
def stEmptyArch : World Int :=
  { outputs := [], archives := [("w2v_100d_oa_cr", ([] : Archive Int))] }

/-- Counterexample to C7 as stated: with the output table missing and an
archive cached, the run does skip the download, but it does not perform
model loading or conversion and produces no output table — the cached
archive here is empty, so extraction fails first.  The claim's
unconditional "producing the output table" is therefore false. -/
theorem c7_counterexample :
    alookup "w2v_100d_oa_cr" stEmptyArch.outputs = none ∧
    (alookup "w2v_100d_oa_cr" stEmptyArch.archives).isSome = true ∧
    prepare_clinical_embeddings ([] : Remote Int) stEmptyArch
        "w2v_100d_oa_cr" =
      (.error .archiveError, stEmptyArch, [.extract]) :=
  ⟨rfl, rfl, rfl⟩

/-- C7 (amended): for a registered key with the output table missing and
an archive cached, the run performs no download event (no network call)
and attempts extraction; and whenever extraction and model loading
succeed on the cached archive, the conversion runs and the output table
is produced. -/
theorem c7_cached_archive_skips_download {α : Type} (remote : Remote α)
    (st : World α) (key url : String) (a : Archive α)
    (hreg : alookup key DOWNLOAD_URLS = some url)
    (hout : (alookup key st.outputs).isSome = false)
    (harc : alookup key st.archives = some a) :
    Ev.download ∉ (prepare_clinical_embeddings remote st key).2.2 ∧
    Ev.extract ∈ (prepare_clinical_embeddings remote st key).2.2 ∧
    (∀ p wv, extract_tar_gz a = .ok p →
      load_word2vec_model (scratchLookup a p) = .ok wv →
      prepare_clinical_embeddings remote st key =
        (.ok (key ++ "_embeddings.parquet"),
         { st with outputs := (key, embeddings_to_parquet wv) :: st.outputs },
         [.extract, .load, .convert])) := by
  rw [prepare_cached_archive remote st key url a hreg hout harc]
  refine ⟨?_, ?_, ?_⟩
  · cases hE : extract_tar_gz a with
    | error e => simp [runFromArchive, hE]
    | ok p =>
      cases hL : load_word2vec_model (scratchLookup a p) with
      | error e => simp [runFromArchive, hE, hL]
      | ok wv => simp [runFromArchive, hE, hL]
  · cases hE : extract_tar_gz a with
    | error e => simp [runFromArchive, hE]
    | ok p =>
      cases hL : load_word2vec_model (scratchLookup a p) with
      | error e => simp [runFromArchive, hE, hL]
      | ok wv => simp [runFromArchive, hE, hL]
  · intro p wv hE hL
    simp [runFromArchive, hE, hL]

/-- Witness for C7 (amended): the cached `goodArchive` is processed
without a download and the output table appears. -/
theorem c7_cached_archive_skips_download_witness :
    Ev.download ∉ (prepare_clinical_embeddings ([] : Remote Int)
      ⟨[], [("w2v_100d_oa_cr", goodArchive)]⟩ "w2v_100d_oa_cr").2.2 ∧
    prepare_clinical_embeddings ([] : Remote Int)
        ⟨[], [("w2v_100d_oa_cr", goodArchive)]⟩ "w2v_100d_oa_cr" =
      (.ok ("w2v_100d_oa_cr" ++ "_embeddings.parquet"),
       ⟨[("w2v_100d_oa_cr", embeddings_to_parquet wvEx)],
        [("w2v_100d_oa_cr", goodArchive)]⟩,
       [.extract, .load, .convert]) :=
  have h := c7_cached_archive_skips_download []
    ⟨[], [("w2v_100d_oa_cr", goodArchive)]⟩ "w2v_100d_oa_cr"
    "https://upenn.box.com/shared/static/6sqzqvcunar39324adgy8qncm7yam6hu.gz"
    goodArchive rfl rfl rfl
  ⟨h.1, h.2.2 "model.bin" wvEx rfl rfl⟩

/-! ## C6: batch abort -/

/-- A failed (or successful) run from an archive never removes an output
table some other run produced: on failure the outputs are untouched, on
success the new entry is for a key that had no output yet. -/
theorem runFromArchive_outputs_mono {α : Type} (st : World α) (key : String)
    (a : Archive α) (evs : List Ev) (k' : String) (t : List (Row α))
    (hk : (alookup key st.outputs).isSome = false)
    (h : alookup k' st.outputs = some t) :
    alookup k' (runFromArchive st key a evs).2.1.outputs = some t := by
  cases hE : extract_tar_gz a with
  | error e => simp only [runFromArchive, hE]; exact h
  | ok p =>
    cases hL : load_word2vec_model (scratchLookup a p) with
    | error e => simp only [runFromArchive, hE, hL]; exact h
    | ok wv =>
      simp only [runFromArchive, hE, hL]
      by_cases hkk : key = k'
      · subst hkk
        rw [h] at hk
        simp at hk
      · simp only [alookup, hkk, if_neg hkk]
        exact h

/-- One pipeline run preserves every output table already on disk. -/
theorem prepare_outputs_mono {α : Type} (remote : Remote α) (st : World α)
    (key k' : String) (t : List (Row α))
    (h : alookup k' st.outputs = some t) :
    alookup k' (prepare_clinical_embeddings remote st key).2.1.outputs =
      some t := by
  cases hreg : alookup key DOWNLOAD_URLS with
  | none => rw [prepare_unknown_key remote st key hreg]; exact h
  | some url =>
    cases hout : (alookup key st.outputs).isSome with
    | true => rw [prepare_output_hit remote st key url hreg hout]; exact h
    | false =>
      cases harc : alookup key st.archives with
      | some a =>
        rw [prepare_cached_archive remote st key url a hreg hout harc]
        exact runFromArchive_outputs_mono st key a [] k' t hout h
      | none =>
        cases hrem : alookup url remote with
        | none =>
          rw [prepare_download_fails remote st key url hreg hout harc
            (Or.inl hrem)]
          exact h
        | some r =>
          cases r with
          | ok a =>
            rw [prepare_download_ok remote st key url a hreg hout harc hrem]
            exact runFromArchive_outputs_mono _ key a [.download] k' t hout h
          | error e =>
            cases e
            rw [prepare_download_fails remote st key url hreg hout harc
              (Or.inr hrem)]
            exact h

/-- After a successful run for `key` the output table for `key` exists. -/
theorem prepare_ok_output_present {α : Type} (remote : Remote α)
    (st : World α) (key : String) (pth : String)
    (hok : (prepare_clinical_embeddings remote st key).1 = .ok pth) :
    (alookup key (prepare_clinical_embeddings remote st key).2.1.outputs).isSome
      = true := by
  cases hreg : alookup key DOWNLOAD_URLS with
  | none =>
    rw [prepare_unknown_key remote st key hreg] at hok
    exact absurd hok (by simp)
  | some url =>
    cases hout : (alookup key st.outputs).isSome with
    | true =>
      rw [prepare_output_hit remote st key url hreg hout]
      exact hout
    | false =>
      have fromArchive : ∀ (st' : World α) (a : Archive α) (evs : List Ev),
          (runFromArchive st' key a evs).1 = .ok pth →
          (alookup key (runFromArchive st' key a evs).2.1.outputs).isSome
            = true := by
        intro st' a evs hok'
        cases hE : extract_tar_gz a with
        | error e => rw [runFromArchive] at hok'; simp [hE] at hok'
        | ok p =>
          cases hL : load_word2vec_model (scratchLookup a p) with
          | error e => rw [runFromArchive] at hok'; simp [hE, hL] at hok'
          | ok wv =>
            simp only [runFromArchive, hE, hL]
            simp [alookup]
      cases harc : alookup key st.archives with
      | some a =>
        rw [prepare_cached_archive remote st key url a hreg hout harc] at hok ⊢
        exact fromArchive st a [] hok
      | none =>
        cases hrem : alookup url remote with
        | none =>
          rw [prepare_download_fails remote st key url hreg hout harc
            (Or.inl hrem)] at hok
          exact absurd hok (by simp)
        | some r =>
          cases r with
          | ok a =>
            rw [prepare_download_ok remote st key url a hreg hout harc hrem]
              at hok ⊢
            exact fromArchive _ a [.download] hok
          | error e =>
            cases e
            rw [prepare_download_fails remote st key url hreg hout harc
              (Or.inr hrem)] at hok
            exact absurd hok (by simp)

/-- The whole batch loop preserves every output table already on disk. -/
theorem runModels_outputs_mono {α : Type} (remote : Remote α)
    (models : List String) (st : World α) (k' : String) (t : List (Row α))
    (h : alookup k' st.outputs = some t) :
    alookup k' (runModels remote st models).1.outputs = some t := by
  induction models generalizing st with
  | nil => exact h
  | cons key rest ih =>
    rcases hp : prepare_clinical_embeddings remote st key with ⟨res, st1, evs⟩
    have h1 : alookup k' st1.outputs = some t := by
      have hm := prepare_outputs_mono remote st key k' t h
      rw [hp] at hm
      exact hm
    cases res with
    | ok pth =>
      simp only [runModels, hp]
      exact ih st1 h1
    | error e =>
      simp only [runModels, hp]
      exact h1

/-- C6: in a batch run the first fault aborts the whole run — the models
are attempted in order up to and including the first failing one, no
later model is attempted, the fault (whose message `main` prints to
stderr) converts to exit code 1, earlier models' output tables are still
on disk at the end, and a batch in which no fault occurs processes every
model and exits 0. -/
theorem c6_batch_abort {α : Type} (remote : Remote α) (st : World α)
    (models : List String) (stf : World α) (processed : List String)
    (err : Option PipelineFault)
    (h : runModels remote st models = (stf, processed, err)) :
    (err = none → processed = models ∧ exitCode err = 0) ∧
    (∀ e, err = some e → exitCode err = 1 ∧
      ∃ pre bad post, models = pre ++ bad :: post ∧
        processed = pre ++ [bad] ∧
        ∀ k ∈ pre, (alookup k stf.outputs).isSome = true) ∧
    (∀ k t, alookup k st.outputs = some t →
      alookup k stf.outputs = some t) := by
  induction models generalizing st stf processed err with
  | nil =>
    rw [runModels] at h
    injection h with h1 h2
    injection h2 with h2 h3
    subst h1; subst h2; subst h3
    refine ⟨fun _ => ⟨rfl, rfl⟩, fun e he => ?_, fun k t ht => ht⟩
    exact absurd he (by simp)
  | cons key rest ih =>
    rcases hp : prepare_clinical_embeddings remote st key with ⟨res, st1, evs⟩
    cases res with
    | ok pth =>
      rcases hr : runModels remote st1 rest with ⟨stf', processed', err'⟩
      simp only [runModels, hp] at h
      rw [hr] at h
      injection h with h1 h2
      injection h2 with h2 h3
      subst h1; subst h2; subst h3
      obtain ⟨ih1, ih2, ih3⟩ := ih st1 stf' processed' err' hr
      refine ⟨?_, ?_, ?_⟩
      · intro hnone
        obtain ⟨hproc, hexit⟩ := ih1 hnone
        exact ⟨by rw [hproc], hexit⟩
      · intro e he
        obtain ⟨hexit, pre', bad, post, hmodels, hproc, houts⟩ := ih2 e he
        refine ⟨hexit, key :: pre', bad, post, by rw [hmodels]; rfl,
          by rw [hproc]; rfl, ?_⟩
        intro k hk
        rcases List.mem_cons.mp hk with rfl | hk'
        · have hsome : (alookup k st1.outputs).isSome = true := by
            have hpres := prepare_ok_output_present remote st k pth
              (by rw [hp])
            rw [hp] at hpres
            exact hpres
          obtain ⟨t, ht⟩ := Option.isSome_iff_exists.mp hsome
          have hfin : alookup k stf'.outputs = some t := by
            have hm := runModels_outputs_mono remote rest st1 k t ht
            rw [hr] at hm
            exact hm
          simp [hfin]
        · exact houts k hk'
      · intro k t ht
        have h1' : alookup k st1.outputs = some t := by
          have hm := prepare_outputs_mono remote st key k t ht
          rw [hp] at hm
          exact hm
        have hm2 := runModels_outputs_mono remote rest st1 k t h1'
        rw [hr] at hm2
        exact hm2
    | error e0 =>
      simp only [runModels, hp] at h
      injection h with h1 h2
      injection h2 with h2 h3
      subst h1; subst h2; subst h3
      refine ⟨fun hnone => absurd hnone (by simp), ?_, ?_⟩
      · intro e _
        exact ⟨rfl, [], key, rest, rfl, rfl,
          fun k hk => absurd hk (List.not_mem_nil k)⟩
      · intro k t ht
        have hm := prepare_outputs_mono remote st key k t ht
        rw [hp] at hm
        exact hm

/-- A network where the first default model's URL serves `goodArchive`
and the second default model's URL fails. -/
def remoteEx : Remote Int :=
  [("https://upenn.box.com/shared/static/6sqzqvcunar39324adgy8qncm7yam6hu.gz",
    .ok goodArchive),
   ("https://upenn.box.com/shared/static/s52hsf65c51e3ro0ssx79e6l25qykt0m.gz",
    .error ())]

/-- The world after the aborted default batch against `remoteEx`: the
first model's output table and cached archive, nothing else. -/
def stfEx : World Int :=
  { outputs := [("w2v_100d_oa_cr", embeddings_to_parquet wvEx)],
    archives := [("w2v_100d_oa_cr", goodArchive)] }

/-- Witness for C6: in the default three-model batch where the second
model's transfer fails, exactly the first two models are attempted, the
exit code is 1, and the first model's output table is present at the
end. -/
theorem c6_batch_abort_witness :
    exitCode (some PipelineFault.transferError) = 1 ∧
    ∃ pre bad post, DEFAULT_MODELS = pre ++ bad :: post ∧
      (["w2v_100d_oa_cr", "w2v_300d_oa_cr"] : List String) = pre ++ [bad] ∧
      ∀ k ∈ pre, (alookup k stfEx.outputs).isSome = true :=
  (c6_batch_abort remoteEx ⟨[], []⟩ DEFAULT_MODELS stfEx
    ["w2v_100d_oa_cr", "w2v_300d_oa_cr"] (some .transferError) rfl).2.1
    .transferError rfl
